import Mathlib

set_option autoImplicit false

/-!
Verification of the SRUM analyzer core of Anubis-Forensics-GUI
(`src/pages/analysis_page.py`, class `SrumAnalyzer`).

Python values are modelled shallowly: `str` as `String`, `bytes` as
`List Nat` (each entry a byte value `< 256`), `dict` as an association
list with in-place overwriting insertion, exceptions as `Except`/`Option`.
-/

namespace Anubis

/-! ## Python dict, modelled as an association list (insertion order kept,
    inserting an existing key overwrites it in place). -/

def dinsert {α β : Type} [DecidableEq α] (k : α) (v : β) : List (α × β) → List (α × β)
  | [] => [(k, v)]
  | (k', v') :: rest => if k' = k then (k, v) :: rest else (k', v') :: dinsert k v rest

def dget {α β : Type} [DecidableEq α] (k : α) : List (α × β) → Option β
  | [] => none
  | (k', v') :: rest => if k' = k then some v' else dget k rest

def dkeys {α β : Type} (d : List (α × β)) : List α := d.map Prod.fst

/-! ## Hex codec (Python `codecs.encode(b, "HEX")` / `codecs.decode(s, "hex")`) -/

def hexChar (n : Nat) : Char :=
  if n < 10 then Char.ofNat (48 + n) else Char.ofNat (87 + n)

def hexStr (bs : List Nat) : String :=
  String.mk (bs.flatMap (fun b => [hexChar (b / 16 % 16), hexChar (b % 16)]))

def hexVal? (c : Char) : Option Nat :=
  if '0' ≤ c ∧ c ≤ '9' then some (c.toNat - 48)
  else if 'a' ≤ c ∧ c ≤ 'f' then some (c.toNat - 87)
  else if 'A' ≤ c ∧ c ≤ 'F' then some (c.toNat - 55)
  else none

def hexDecodeList : List Char → Option (List Nat)
  | [] => some []
  | [_] => none
  | c1 :: c2 :: rest => do
      let h ← hexVal? c1
      let l ← hexVal? c2
      let bs ← hexDecodeList rest
      pure ((16 * h + l) :: bs)

/-- Python `codecs.decode(s, "hex")`: `none` models the raised error
    (odd length or a non-hex digit). -/
def hexDecode (s : String) : Option (List Nat) := hexDecodeList s.data

/-! ## Blob/Text Normalizer: `SrumAnalyzer._blob_to_string`.

The two byte regexes of the source are fixed-width and hence deterministic:
`^(?:[^\x00]\x00)+\x00\x00$` and `^(?:\x00[^\x00])+\x00\x00$`.
Python's `$` also matches just before one trailing newline byte, which the
matchers below reproduce. -/

/-- After the first `[^\x00]\x00` pair: either the `\x00\x00` terminator
    (with an optional final newline byte that `$` tolerates) or one more
    pair and recursion. -/
def utf16leTail : List Nat → Bool
  | b :: 0 :: rest =>
      if b = 0 then decide (rest = [] ∨ rest = [10])
      else utf16leTail rest
  | _ => false

def matchUtf16le : List Nat → Bool
  | b :: 0 :: rest => if b = 0 then false else utf16leTail rest
  | _ => false

def utf16beTail : List Nat → Bool
  | 0 :: b :: rest =>
      if b = 0 then decide (rest = [] ∨ rest = [10])
      else utf16beTail rest
  | _ => false

def matchUtf16be : List Nat → Bool
  | 0 :: b :: rest => if b = 0 then false else utf16beTail rest
  | _ => false

/-- Byte pairs to UTF-16 code units, little-endian; `none` on odd length. -/
def bytesToUnitsLE : List Nat → Option (List Nat)
  | [] => some []
  | [_] => none
  | lo :: hi :: rest => (bytesToUnitsLE rest).map (fun us => (lo + 256 * hi) :: us)

/-- Byte pairs to UTF-16 code units, big-endian; `none` on odd length. -/
def bytesToUnitsBE : List Nat → Option (List Nat)
  | [] => some []
  | [_] => none
  | hi :: lo :: rest => (bytesToUnitsBE rest).map (fun us => (lo + 256 * hi) :: us)

/-- UTF-16 code units to characters; `none` models `UnicodeDecodeError`
    (an unpaired surrogate, per `errors="strict"`). -/
def unitsToChars : List Nat → Option (List Char)
  | [] => some []
  | [u] =>
      if 0xD800 ≤ u ∧ u < 0xE000 then none
      else (some [Char.ofNat u])
  | u :: v :: rest =>
      if 0xD800 ≤ u ∧ u < 0xDC00 then
        if 0xDC00 ≤ v ∧ v < 0xE000 then
          (unitsToChars rest).map
            (fun cs => Char.ofNat (0x10000 + (u - 0xD800) * 0x400 + (v - 0xDC00)) :: cs)
        else none
      else if 0xDC00 ≤ u ∧ u < 0xE000 then none
      else (unitsToChars (v :: rest)).map (fun cs => Char.ofNat u :: cs)

def decodeUtf16le (bs : List Nat) : Option (List Char) :=
  (bytesToUnitsLE bs).bind unitsToChars

def decodeUtf16be (bs : List Nat) : Option (List Char) :=
  (bytesToUnitsBE bs).bind unitsToChars

/-- Python `str.strip("\x00")`: drop leading and trailing NUL characters. -/
def stripNull (cs : List Char) : List Char :=
  ((cs.dropWhile (fun c => c = '\x00')).reverse.dropWhile (fun c => c = '\x00')).reverse

/-- The `try:` body of `_blob_to_string` applied to the byte form `chrblob`;
    `none` means a decode exception was raised inside the body
    (the `latin1` branch never fails). -/
def blob_decode_core (b : List Nat) : Option String :=
  if matchUtf16le b then (decodeUtf16le b).map (fun cs => String.mk (stripNull cs))
  else if matchUtf16be b then (decodeUtf16be b).map (fun cs => String.mk (stripNull cs))
  else some (String.mk (stripNull (b.map Char.ofNat)))

/-- `SrumAnalyzer._blob_to_string` on a `bytes` argument: on any exception the
    `except` clause hex-encodes the original bytes. -/
def blob_to_string_bytes (b : List Nat) : String :=
  (blob_decode_core b).getD (hexStr b)

/-- `SrumAnalyzer._blob_to_string` on a `str` argument: the string is first
    hex-decoded; on any exception the `except` clause returns `str(blob)`,
    i.e. the original string itself. -/
def blob_to_string_str (s : String) : String :=
  ((hexDecode s).bind blob_decode_core).getD s

/-- UTF-16LE encoding of a character list (surrogate pairs above `0xFFFF`);
    this is the spec-side construction for the round-trip claim. -/
def utf16leEncode (cs : List Char) : List Nat :=
  cs.flatMap (fun c =>
    let n := c.toNat
    if n < 0x10000 then [n % 256, n / 256]
    else
      let m := n - 0x10000
      [(0xD800 + m / 0x400) % 256, (0xD800 + m / 0x400) / 256,
       (0xDC00 + m % 0x400) % 256, (0xDC00 + m % 0x400) / 256])

/-! ## IEEE-754 binary64, modelled exactly.

`struct.unpack("<d", blob)` decodes 8 little-endian bytes to a Python float.
A finite double is represented by its exact rational value; IEEE negative
zero, the infinities and NaN get their own constructors. -/

inductive FloatVal where
  | finite (q : ℚ)
  | negzero
  | inf (neg : Bool)
  | nan
  deriving DecidableEq

/-- Little-endian byte-list value. -/
def leNat (bs : List Nat) : Nat := bs.foldr (fun b a => 256 * a + b) 0

/-- `struct.unpack("<d", blob)`: `none` models the `struct.error` raised on a
    byte length other than 8. -/
def decodeDoubleLE (bs : List Nat) : Option FloatVal :=
  if bs.length = 8 then
    let u : ℕ := leNat bs
    let sign : ℕ := u / 2 ^ 63
    let expBits : ℕ := u / 2 ^ 52 % 2 ^ 11
    let frac : ℕ := u % 2 ^ 52
    if expBits = 2047 then
      some (if frac = 0 then .inf (decide (sign = 1)) else .nan)
    else if expBits = 0 then
      if frac = 0 then some (if sign = 1 then .negzero else .finite 0)
      else some (.finite ((if sign = 1 then -1 else 1) * (frac : ℚ) / 2 ^ 1074))
    else
      some (.finite ((if sign = 1 then -1 else 1) * ((2 ^ 52 + frac : ℕ) : ℚ)
        * 2 ^ expBits / 2 ^ 1075))
  else none

/-- Round half to even, to an integer. -/
def rhe (q : ℚ) : ℤ :=
  let f := ⌊q⌋
  let r := q - f
  if r < 1 / 2 then f
  else if 1 / 2 < r then f + 1
  else if f % 2 = 0 then f else f + 1

/-- Largest `e : ℤ` with `2 ^ e ≤ q` (for `q > 0`): a log₂ estimate from the
    numerator and denominator, fixed up by direct comparison. -/
def ilog2q (q : ℚ) : ℤ :=
  let e0 : ℤ := (Nat.log2 q.num.natAbs : ℤ) - (Nat.log2 q.den : ℤ)
  if q < 2 ^ e0 then e0 - 1 else if 2 ^ (e0 + 1) ≤ q then e0 + 1 else e0

/-- Largest `k : ℤ` with `10 ^ k ≤ q` (for `q > 0`). -/
def ilog10q (q : ℚ) : ℤ :=
  let e0 : ℤ := (Nat.log 10 q.num.natAbs : ℤ) - (Nat.log 10 q.den : ℤ)
  if q < 10 ^ e0 then e0 - 1 else if 10 ^ (e0 + 1) ≤ q then e0 + 1 else e0

/-- Round a positive rational to the nearest binary64, ties to even
    (CPython's mode when parsing decimal strings). -/
def roundDoublePos (q : ℚ) : FloatVal :=
  let e := ilog2q q
  if 1024 ≤ e then .inf false
  else if -1022 ≤ e then
    let m := rhe (q * 2 ^ (52 - e))
    if m = 2 ^ 53 then
      if e + 1 > 1023 then .inf false else .finite ((2 : ℚ) ^ (e + 1))
    else .finite ((m : ℚ) * 2 ^ (e - 52))
  else
    let m := rhe (q * 2 ^ (1074 : ℤ))
    if m = 0 then .finite 0 else .finite ((m : ℚ) / 2 ^ 1074)

/-- `(n, k)` with `10 ^ (p-1) ≤ n < 10 ^ p` and value `n * 10 ^ (k - p + 1)`
    being `q` rounded to `p` significant decimal digits. -/
def sigDigits (q : ℚ) (p : Nat) : ℤ × ℤ :=
  let k := ilog10q q
  let n := rhe (q * 10 ^ ((p : ℤ) - 1 - k))
  if n = 10 ^ p then ((10 : ℤ) ^ (p - 1), k + 1) else (n, k)

def digitsValue (n k : ℤ) (p : Nat) : ℚ := (n : ℚ) * 10 ^ (k - (p : ℤ) + 1)

/-- Shortest round-tripping decimal form of a positive double value
    (CPython `repr` digits): the least number of significant digits that
    reads back to the same double. -/
def shortestDigits (q : ℚ) : ℤ × ℤ × Nat :=
  match (List.range 17).find? (fun i =>
      let p := i + 1
      let nk := sigDigits q p
      roundDoublePos (digitsValue nk.1 nk.2 p) = .finite q) with
  | some i =>
      let nk := sigDigits q (i + 1)
      (nk.1, nk.2, i + 1)
  | none =>
      let nk := sigDigits q 17
      (nk.1, nk.2, 17)

/-- CPython float `repr` formatting of a digit string `ds` (leading digit
    first) with decimal exponent `k` (value `= 0.d₁…dₚ × 10^(k+1)`):
    scientific form when `k < -4` or `k ≥ 16`, positional otherwise. -/
def pyFormatDigits (ds : List Char) (k : ℤ) : String :=
  let p : ℤ := (ds.length : ℤ)
  if 16 ≤ k ∨ k < -4 then
    let mant :=
      match ds with
      | [] => ""
      | [d] => String.mk [d]
      | d :: rest => String.mk [d] ++ "." ++ String.mk rest
    let ka := k.natAbs
    let es := if ka < 10 then "0" ++ toString ka else toString ka
    mant ++ "e" ++ (if k < 0 then "-" else "+") ++ es
  else if p - 1 ≤ k then
    String.mk ds ++ String.mk (List.replicate (k + 1 - p).toNat '0') ++ ".0"
  else if 0 ≤ k then
    String.mk (ds.take (k.toNat + 1)) ++ "." ++ String.mk (ds.drop (k.toNat + 1))
  else
    "0." ++ String.mk (List.replicate ((-k).toNat - 1) '0') ++ String.mk ds

/-- Python `str` of a float (`repr`: the shortest decimal string that
    round-trips to the same double). -/
def pyFloatStr (v : FloatVal) : String :=
  match v with
  | .nan => "nan"
  | .inf false => "inf"
  | .inf true => "-inf"
  | .negzero => "-0.0"
  | .finite q =>
      if q = 0 then "0.0"
      else if 0 < q then
        let nkp := shortestDigits q
        pyFormatDigits (toString nkp.1).data nkp.2.1
      else
        let nkp := shortestDigits (-q)
        "-" ++ pyFormatDigits (toString nkp.1).data nkp.2.1

/-! ## Python `datetime`, proleptic Gregorian calendar.

A datetime is modelled as its exact offset in seconds (a rational, to carry
sub-second parts) from 0001-01-01T00:00:00, which is `datetime.min`. -/

def isLeap (y : Nat) : Bool := (y % 4 = 0 && y % 100 ≠ 0) || y % 400 = 0

def daysBeforeMonth (m : Nat) : Nat :=
  [0, 0, 31, 59, 90, 120, 151, 181, 212, 243, 273, 304, 334].getD m 0

/-- `datetime.date(y, m, d).toordinal()`: day number with 0001-01-01 ↦ 1. -/
def toordinal (y m d : Nat) : Nat :=
  365 * (y - 1) + (y - 1) / 4 - (y - 1) / 100 + (y - 1) / 400
    + daysBeforeMonth m + (if 3 ≤ m ∧ isLeap y then 1 else 0) + d

/-- Seconds from 0001-01-01T00:00:00 to midnight of the given date. -/
def pyDatetimeSecs (y m d : Nat) : ℚ := ((toordinal y m d - 1) * 86400 : ℕ)

/-- Offset of `datetime.max` = 9999-12-31T23:59:59.999999. -/
def datetimeMaxSecs : ℚ :=
  ((toordinal 9999 12 31 - 1) * 86400 + 86399 : ℕ) + (999999 : ℚ) / 1000000

/-! ## `SrumAnalyzer._ole_timestamp`.

Python float arithmetic inside the conversion (`float("0."+ts)`,
`86400 * fraction`, `timedelta`'s microsecond resolution) is modelled over
exact rationals.  `timedelta`/`datetime.__add__` overflow (`OverflowError`,
caught by the `except`) is equivalent to the final instant falling outside
the `datetime` range. -/

/-- Python `str.split(".")` on the character list. -/
def splitOnDot (cs : List Char) : List (List Char) :=
  match cs with
  | [] => [[]]
  | c :: rest =>
      let r := splitOnDot rest
      if c = '.' then [] :: r
      else
        match r with
        | a :: as => (c :: a) :: as
        | [] => [[c]]

/-- `td, ts = s.split(".")`: succeeds only when the split has exactly two
    parts (otherwise the tuple unpacking raises `ValueError`). -/
def splitDotOnce (s : String) : Option (String × String) :=
  match splitOnDot s.data with
  | [a, b] => some (String.mk a, String.mk b)
  | _ => none

def digitsToNat (ds : List Char) : Nat :=
  ds.foldl (fun a c => 10 * a + (c.toNat - 48)) 0

/-- Python `int(s)` for an optionally signed digit string (the inputs here
    come from a float `repr`, which never carries whitespace or
    underscores). -/
def parseIntOpt (s : String) : Option ℤ :=
  match s.data with
  | '-' :: ds =>
      if ds ≠ [] ∧ ds.all (fun c => c.isDigit) then some (-(digitsToNat ds : ℤ)) else none
  | '+' :: ds =>
      if ds ≠ [] ∧ ds.all (fun c => c.isDigit) then some (digitsToNat ds : ℤ) else none
  | ds =>
      if ds ≠ [] ∧ ds.all (fun c => c.isDigit) then some (digitsToNat ds : ℤ) else none

/-- Split mantissa and exponent at the first `e`/`E`. -/
def splitExp (cs : List Char) : List Char × Option (List Char) :=
  match cs.span (fun c => c ≠ 'e' ∧ c ≠ 'E') with
  | (m, []) => (m, none)
  | (m, _ :: rest) => (m, some rest)

def parseExpPart (cs : List Char) : Option ℤ :=
  match cs with
  | '-' :: ds =>
      if ds ≠ [] ∧ ds.all (fun c => c.isDigit) then some (-(digitsToNat ds : ℤ)) else none
  | '+' :: ds =>
      if ds ≠ [] ∧ ds.all (fun c => c.isDigit) then some (digitsToNat ds : ℤ) else none
  | ds =>
      if ds ≠ [] ∧ ds.all (fun c => c.isDigit) then some (digitsToNat ds : ℤ) else none

/-- Python `float("0." + ts)`, modelled exactly: fraction digits with an
    optional exponent part.  `none` models the `ValueError` of an
    unparsable literal. -/
def parseFracExact (ts : String) : Option ℚ :=
  let me := splitExp ts.data
  if me.1.all (fun c => c.isDigit) then
    let base : ℚ := (digitsToNat me.1 : ℚ) / 10 ^ me.1.length
    match me.2 with
    | none => some base
    | some e => (parseExpPart e).map (fun k => base * 10 ^ k)
  else none

inductive OleResult where
  | dt (secs : ℚ)
  | invalid
  deriving DecidableEq

/-- `SrumAnalyzer._ole_timestamp`: unpack a little-endian double, split its
    string representation at the decimal point, add integer days and
    `86400 * fraction` seconds to `datetime(1899, 12, 30)`; `.invalid` is the
    literal string "Invalid OLE Timestamp" returned by the `except` clause
    (the `try` block covers the whole body, so the function never raises). -/
def ole_timestamp (blob : List Nat) : OleResult :=
  match decodeDoubleLE blob with
  | none => .invalid
  | some fv =>
      match splitDotOnce (pyFloatStr fv) with
      | none => .invalid
      | some (td, ts) =>
          match parseIntOpt td, parseFracExact ts with
          | some d, some f =>
              let secs := pyDatetimeSecs 1899 12 30 + (d : ℚ) * 86400 + 86400 * f
              if 0 ≤ secs ∧ secs ≤ datetimeMaxSecs then .dt secs else .invalid
          | _, _ => .invalid

/-! ## Workbook cell values and Python `str()` of them -/

inductive CellVal where
  | cs (s : String)
  | ci (n : ℤ)
  | cf (v : FloatVal)
  | cb (b : Bool)
  | cnone
  deriving DecidableEq

def pyStrCell : CellVal → String
  | .cs s => s
  | .ci n => toString n
  | .cf v => pyFloatStr v
  | .cb true => "True"
  | .cb false => "False"
  | .cnone => "None"

/-- Python truthiness of a cell value (`if not x`). -/
def pyFalsyCell : CellVal → Bool
  | .cnone => true
  | .cs s => decide (s = "")
  | .ci n => decide (n = 0)
  | .cb b => !b
  | .cf v => decide (v = .finite 0 ∨ v = .negzero)

/-- The template lookups: lookup name → (key → value) table. -/
def Lookups : Type := List (String × List (CellVal × CellVal))

/-! ## `SrumAnalyzer._binary_sid_to_string_sid` -/

/-- Big-endian byte-list value; `struct.unpack(">Q", b"\x00\x00" + sid[2:8])`
    is the big-endian value of the six bytes `sid[2:8]` (the two zero prefix
    bytes contribute nothing). -/
def beNat (bs : List Nat) : Nat := bs.foldl (fun a b => 256 * a + b) 0

/-- The `for i in range(sub_auth_count)` loop: little-endian 4-byte groups
    `sid[8+4i : 12+4i]`; `none` models the `struct.error` raised at the first
    slice shorter than 4 bytes. -/
def subAuthsFrom (sid : List Nat) (i : Nat) : Nat → Option (List Nat)
  | 0 => some []
  | n + 1 =>
      let sl := (sid.drop (8 + 4 * i)).take 4
      if sl.length = 4 then
        (subAuthsFrom sid (i + 1) n).map (fun rest => leNat sl :: rest)
      else none

/-- `SrumAnalyzer._binary_sid_to_string_sid` on a `str` argument: hex-decode,
    then `S-<revision>-<authority>` plus one `-<sub-authority>` per declared
    sub-authority, with the username from the "Known SIDS" lookup (default
    "unknown") in parentheses; every failure inside the `try` block
    (bad hex, an index out of range, a short `struct` buffer) is caught and
    yields the literal "Invalid SID". -/
def binary_sid_to_string_sid (tl : Lookups) (sid_hex : String) : String :=
  if sid_hex = "" then ""
  else
    match hexDecode sid_hex with
    | none => "Invalid SID"
    | some sid =>
        match sid with
        | [] => "Invalid SID"
        | b0 :: rest =>
            if rest = [] then "Invalid SID"
            else if ((sid.drop 2).take 6).length ≠ 6 then "Invalid SID"
            else
              match subAuthsFrom sid 0 (sid.getD 1 0) with
              | none => "Invalid SID"
              | some sas =>
                  let sid_str := "S-" ++ toString b0 ++ "-"
                    ++ toString (beNat ((sid.drop 2).take 6))
                    ++ String.join (sas.map (fun sa => "-" ++ toString sa))
                  let sid_name :=
                    (dget (CellVal.cs sid_str) ((dget "Known SIDS" tl).getD [])).getD
                      (.cs "unknown")
                  sid_str ++ " (" ++ pyStrCell sid_name ++ ")"

/-- Spec-side form of the SID string ("S-<revision>-<authority>" followed by
    one "-<sub-authority>" per sub-authority, where revision is byte 0, the
    count byte 1, the authority the big-endian value of bytes 2–7 and each
    sub-authority a little-endian 4-byte group from byte 8 on). -/
def sidStringSpec (bs : List Nat) : String :=
  "S-" ++ toString (bs.getD 0 0) ++ "-" ++ toString (beNat ((bs.drop 2).take 6))
    ++ String.join ((List.range (bs.getD 1 0)).map
        (fun i => "-" ++ toString (leNat ((bs.drop (8 + 4 * i)).take 4))))

/-- Spec-side form of the username resolution from the "Known SIDS" lookup. -/
def knownSidName (tl : Lookups) (sid_str : String) : CellVal :=
  (dget (CellVal.cs sid_str) ((dget "Known SIDS" tl).getD [])).getD (.cs "unknown")

/-! ## ESE database model.

`pyesedb` is a black box exposing table/record/column iteration; tables and
records are modelled by their observable behaviour, with `Except Unit`
results where the binding may raise. -/

inductive ColType where
  | binary | boolean | dateTime | double64 | float32 | guid
  | int16s | int16u | int32s | int32u | int64s | int8u
  | largeBinary | largeText | superLarge | text | other
  deriving DecidableEq

structure EseRecord where
  colType : Nat → ColType
  valueData : Nat → Option (List Nat)

structure EseTable where
  name : String
  columns : List String
  numRecords : Except Unit Nat
  getRecord : Nat → Except Unit EseRecord

/-- Exceptions that can escape the analyzer's helpers. -/
inductive PyExn where
  | valueError
  | keyError
  deriving DecidableEq

inductive PyVal where
  | vstr (s : String)
  | vbool (b : Bool)
  | vint (n : ℤ)
  | vfloat (v : FloatVal)
  | vdt (secs : ℚ)
  | vnone
  deriving DecidableEq

/-- `SrumAnalyzer._ese_table_get_record`: `try`/`except` returning `None`. -/
def ese_table_get_record (t : EseTable) (rowNum : Nat) : Option EseRecord :=
  (t.getRecord rowNum).toOption

/-- `SrumAnalyzer._ese_table_record_count`: `try`/`except` returning 0. -/
def ese_table_record_count (t : EseTable) : Nat :=
  t.numRecords.toOption.getD 0

/-- IEEE-754 binary32 via `struct.unpack("f", data)` (the value, widened
    exactly); `none` models the `struct.error` on a length other than 4. -/
def decodeFloat32LE (bs : List Nat) : Option FloatVal :=
  if bs.length = 4 then
    let u : ℕ := leNat bs
    let sign : ℕ := u / 2 ^ 31
    let expBits : ℕ := u / 2 ^ 23 % 2 ^ 8
    let frac : ℕ := u % 2 ^ 23
    if expBits = 255 then
      some (if frac = 0 then .inf (decide (sign = 1)) else .nan)
    else if expBits = 0 then
      if frac = 0 then some (if sign = 1 then .negzero else .finite 0)
      else some (.finite ((if sign = 1 then -1 else 1) * (frac : ℚ) / 2 ^ 149))
    else
      some (.finite ((if sign = 1 then -1 else 1) * ((2 ^ 23 + frac : ℕ) : ℚ)
        * 2 ^ expBits / 2 ^ 150))
  else none

/-- Little-endian two's-complement signed value of a byte list. -/
def leInt (bs : List Nat) : ℤ :=
  let u := leNat bs
  if u < 2 ^ (8 * bs.length - 1) then (u : ℤ) else (u : ℤ) - 2 ^ (8 * bs.length)

/-- `str(uuid.UUID(bytes=b))` for a 16-byte buffer: hex groups 8-4-4-4-12. -/
def uuidStr (bs : List Nat) : String :=
  hexStr (bs.take 4) ++ "-" ++ hexStr ((bs.drop 4).take 2) ++ "-"
    ++ hexStr ((bs.drop 6).take 2) ++ "-" ++ hexStr ((bs.drop 8).take 2) ++ "-"
    ++ hexStr (bs.drop 10)

/-- `SrumAnalyzer._smart_retrieve`.  The `except (struct.error, TypeError)`
    clause catches the short-buffer errors of every `struct.unpack` call and
    falls back to `_blob_to_string`; `uuid.UUID(bytes=...)` on a buffer that
    is not exactly 16 bytes raises `ValueError`, which that clause does NOT
    catch, so it escapes (`.error .valueError`). -/
def smart_retrieve (t : EseTable) (recNum colNum : Nat) : Except PyExn PyVal :=
  match ese_table_get_record t recNum with
  | none => .ok (.vstr "Error")
  | some rec =>
      match rec.valueData colNum with
      | none => .ok (.vstr "Empty")
      | some data =>
          match rec.colType colNum with
          | .binary => .ok (.vstr (hexStr data))
          | .boolean =>
              if data.length = 1 then .ok (.vbool (decide (data.getD 0 0 ≠ 0)))
              else .ok (.vstr (blob_to_string_bytes data))
          | .dateTime =>
              .ok (match ole_timestamp data with
                   | .dt q => .vdt q
                   | .invalid => .vstr "Invalid OLE Timestamp")
          | .double64 =>
              match decodeDoubleLE data with
              | some v => .ok (.vfloat v)
              | none => .ok (.vstr (blob_to_string_bytes data))
          | .float32 =>
              match decodeFloat32LE data with
              | some v => .ok (.vfloat v)
              | none => .ok (.vstr (blob_to_string_bytes data))
          | .guid =>
              if data.length = 16 then .ok (.vstr (uuidStr data))
              else .error .valueError
          | .int16s =>
              if data.length = 2 then .ok (.vint (leInt data))
              else .ok (.vstr (blob_to_string_bytes data))
          | .int16u =>
              if data.length = 2 then .ok (.vint (leNat data))
              else .ok (.vstr (blob_to_string_bytes data))
          | .int32s =>
              if data.length = 4 then .ok (.vint (leInt data))
              else .ok (.vstr (blob_to_string_bytes data))
          | .int32u =>
              if data.length = 4 then .ok (.vint (leNat data))
              else .ok (.vstr (blob_to_string_bytes data))
          | .int64s =>
              if data.length = 8 then .ok (.vint (leInt data))
              else .ok (.vstr (blob_to_string_bytes data))
          | .int8u =>
              if data.length = 1 then .ok (.vint (leNat data))
              else .ok (.vstr (blob_to_string_bytes data))
          | .largeBinary => .ok (.vstr (hexStr data))
          | .largeText => .ok (.vstr (blob_to_string_bytes data))
          | .superLarge => .ok (.vstr (hexStr data))
          | .text => .ok (.vstr (blob_to_string_bytes data))
          | .other => .ok (.vstr (blob_to_string_bytes data))

/-! ## Python `str()` of the decoded values (for the GUI rows) -/

/-- `datetime.date.fromordinal`, the 400/100/4/1-year cycle algorithm. -/
def dateFromOrdinal (n : Nat) : Nat × Nat × Nat :=
  let d0 := n - 1
  let n400 := d0 / 146097
  let r1 := d0 % 146097
  let n100 := r1 / 36524
  let r2 := r1 % 36524
  let n4 := r2 / 1461
  let r3 := r2 % 1461
  let n1 := r3 / 365
  let r4 := r3 % 365
  let y := 400 * n400 + 100 * n100 + 4 * n4 + n1 + 1
  if n1 = 4 ∨ n100 = 4 then (y - 1, (12, 31))
  else
    let adj : Nat → Nat := fun m =>
      daysBeforeMonth m + (if 3 ≤ m ∧ isLeap y then 1 else 0)
    match (List.range 12).reverse.find? (fun i => adj (i + 1) ≤ r4) with
    | some i => (y, (i + 1, r4 - adj (i + 1) + 1))
    | none => (y, (1, r4 + 1))

def padZeros (w : Nat) (n : Nat) : String :=
  let s := toString n
  String.mk (List.replicate (w - s.length) '0') ++ s

/-- Python `str(datetime)`: "YYYY-MM-DD HH:MM:SS[.ffffff]" (microseconds
    only when non-zero; sub-microsecond residue of the exact model is
    truncated). -/
def pyStrDatetime (secs : ℚ) : String :=
  let total := (⌊secs⌋).toNat
  let days := total / 86400
  let rem := total % 86400
  let micro := (⌊(secs - (total : ℚ)) * 1000000⌋).toNat
  let ymd := dateFromOrdinal (days + 1)
  padZeros 4 ymd.1 ++ "-" ++ padZeros 2 ymd.2.1 ++ "-" ++ padZeros 2 ymd.2.2 ++ " "
    ++ padZeros 2 (rem / 3600) ++ ":" ++ padZeros 2 (rem % 3600 / 60) ++ ":"
    ++ padZeros 2 (rem % 60)
    ++ (if micro = 0 then "" else "." ++ padZeros 6 micro)

/-- Python `str()` of a decoded value. -/
def pyStrVal : PyVal → String
  | .vstr s => s
  | .vbool true => "True"
  | .vbool false => "False"
  | .vint n => toString n
  | .vfloat v => pyFloatStr v
  | .vdt secs => pyStrDatetime secs
  | .vnone => "None"

/-! ## `SrumAnalyzer._process_srum_tables`.

The template tables: ESE table name (a cell value) ↦ (sheet name, fields),
fields: field-name cell ↦ (style of row-4 cell, format cell of row 3,
header cell of row 4 or the field name).  `_format_output_for_gui` is
modelled as an abstract total function `fmtFn` — in the source its whole
body is wrapped in `try ... except Exception: pass` followed by
`return str(val)`, so it always returns a string and never raises; no
claim concerns its internals. -/

def TField : Type := String × CellVal × CellVal

def TemplateTables : Type := List (CellVal × (String × List (CellVal × TField)))

/-- `SrumAnalyzer._ese_table_guid_to_name`:
    `template_tables.get(table.name, (table.name,))[0]`. -/
def ese_table_guid_to_name (tt : TemplateTables) (t : EseTable) : String :=
  match dget (CellVal.cs t.name) tt with
  | some nf => nf.1
  | none => t.name

/-- The header row: mapped display labels for templated columns, raw column
    names otherwise. -/
def headerRow (tt : TemplateTables) (t : EseTable) : List CellVal :=
  match dget (CellVal.cs t.name) tt with
  | some nf =>
      t.columns.map (fun cn =>
        match dget (CellVal.cs cn) nf.2 with
        | some fld => fld.2.2
        | none => .cs cn)
  | none => t.columns.map (fun cn => .cs cn)

/-- The `for col_num in range(ese_table.number_of_columns)` loop body:
    decode, substitute the warning placeholder for the "Error" sentinel,
    "None" for `None`, format templated columns, and stringify. -/
def buildRow (fmtFn : PyVal → CellVal → String) (tt : TemplateTables) (t : EseTable)
    (rowNum : Nat) : Except PyExn (List CellVal) :=
  (List.range t.columns.length).mapM (fun colNum => do
    let val ← smart_retrieve t rowNum colNum
    let cell :=
      if val = .vstr "Error" then
        "WARNING: Invalid Column Name " ++ t.columns.getD colNum ""
      else if val = .vnone then "None"
      else
        match dget (CellVal.cs t.name) tt with
        | some nf =>
            match dget (CellVal.cs (t.columns.getD colNum "")) nf.2 with
            | some fld => fmtFn val fld.2.1
            | none => pyStrVal val
        | none => pyStrVal val
    pure (CellVal.cs cell))

/-- The `for row_num in range(num_recs)` loop: a record whose guarded fetch
    returns `None` is skipped (`continue`); otherwise its row is built and
    appended. -/
def processTableRows (fmtFn : PyVal → CellVal → String) (tt : TemplateTables)
    (t : EseTable) (numRecs : Nat) : Except PyExn (List (List CellVal)) :=
  (List.range numRecs).foldlM (fun acc rowNum =>
    match ese_table_get_record t rowNum with
    | none => pure acc
    | some _ => do
        let row ← buildRow fmtFn tt t rowNum
        pure (acc ++ [row])) []

/-- The skip-list of `SrumAnalyzer.analyze`. -/
def skip_tables : List String :=
  ["MSysObjects", "MSysObjectsShadow", "MSysObjids", "MSysLocales", "SruDbIdMapTable"]

/-- One iteration of the `for table_num in range(...)` loop. -/
def processFoldStep (fmtFn : PyVal → CellVal → String) (tt : TemplateTables)
    (skip : List String) (acc : List (String × List (List CellVal))) (t : EseTable) :
    Except PyExn (List (String × List (List CellVal))) :=
  if t.name ∈ skip then pure acc
  else
    let numRecs := ese_table_record_count t
    if numRecs = 0 then pure acc
    else do
      let rows ← processTableRows fmtFn tt t numRecs
      pure (dinsert (ese_table_guid_to_name tt t) (headerRow tt t :: rows) acc)

/-- `SrumAnalyzer._process_srum_tables`: skip-listed tables and zero-record
    tables are passed over; every other table contributes
    `header :: data rows` under its display name. -/
def process_srum_tables (fmtFn : PyVal → CellVal → String) (tt : TemplateTables)
    (skip : List String) (tables : List EseTable) :
    Except PyExn (List (String × List (List CellVal)) × String) :=
  (tables.foldlM (processFoldStep fmtFn tt skip) []).map
    (fun m => (m, "Finished processing all tables."))

/-! ## Concrete example tables used in witnesses and counterexamples -/

/-- A record whose only column is a GUID with a malformed 4-byte buffer. -/
def guidBadRecord : EseRecord :=
  ⟨fun _ => .guid, fun _ => some [0, 0, 0, 0]⟩

def guidBadTable : EseTable :=
  ⟨"SomeTable", ["g"], .ok 1, fun _ => .ok guidBadRecord⟩

/-- An empty record (every column valueless, typed `other`). -/
def emptyRecord : EseRecord := ⟨fun _ => .other, fun _ => none⟩

/-- A skip-listed table that nevertheless reports records. -/
def tSkipEx : EseTable := ⟨"MSysObjects", [], .ok 3, fun _ => .ok emptyRecord⟩

/-- A table reporting zero records. -/
def tZeroEx : EseTable := ⟨"Zero", [], .ok 0, fun _ => .ok emptyRecord⟩

/-- An ordinary zero-column table with one record. -/
def tGoodEx : EseTable := ⟨"Good", [], .ok 1, fun _ => .ok emptyRecord⟩

/-- A table reporting 3 records whose middle record accessor raises. -/
def tDropEx : EseTable :=
  ⟨"Drop", [], .ok 3, fun i => if i = 1 then .error () else .ok emptyRecord⟩

/-! ## `SrumAnalyzer._load_srumid_lookups` (the ID-Map Resolver) -/

/-- `database.get_table_by_name(...)`: `None` when absent (`None.columns`
    then raises `AttributeError`, which the `except` catches). -/
def getTableByName (tables : List EseTable) (nm : String) : Option EseTable :=
  tables.find? (fun t => t.name = nm)

/-- `{x.name: i for i, x in enumerate(lookup_table.columns)}`. -/
def columnLookup (t : EseTable) : List (String × Nat) :=
  t.columns.enum.foldl (fun d p => dinsert p.2 p.1 d) []

/-- Python `id_type == 3` on a decoded value (an int or float compares equal
    to 3; strings, datetimes and booleans do not). -/
def pyEq3 : PyVal → Bool
  | .vint n => decide (n = 3)
  | .vfloat (.finite q) => decide (q = 3)
  | _ => false

/-- `_binary_sid_to_string_sid(blob)` on an arbitrary decoded value: a falsy
    argument returns "", a non-string truthy argument makes `codecs.decode`
    raise `TypeError`, caught as "Invalid SID". -/
def sidDecodePy (tl : Lookups) : PyVal → PyVal
  | .vstr s => .vstr (binary_sid_to_string_sid tl s)
  | .vnone => .vstr ""
  | .vint n => .vstr (if n = 0 then "" else "Invalid SID")
  | .vbool b => .vstr (if b then "Invalid SID" else "")
  | .vfloat v =>
      .vstr (if v = .finite 0 ∨ v = .negzero then "" else "Invalid SID")
  | .vdt _ => .vstr "Invalid SID"

/-- `_blob_to_string(blob)` on an arbitrary decoded value: a str is
    hex-decoded first; a non-str argument makes the body raise `TypeError`,
    and the `except` returns `str(blob)`. -/
def blobToStringPy : PyVal → PyVal
  | .vstr s => .vstr (blob_to_string_str s)
  | v => .vstr (pyStrVal v)

/-- The loop body of `_load_srumid_lookups`: the `column_lookup['IdBlob']`,
    `['IdType']`, `['IdIndex']` subscripts sit OUTSIDE the `try` block, so a
    missing column raises an uncaught `KeyError`. -/
def srumidStep (tl : Lookups) (t : EseTable) (cl : List (String × Nat))
    (acc : List (PyVal × PyVal)) (recNum : Nat) : Except PyExn (List (PyVal × PyVal)) :=
  match dget "IdBlob" cl with
  | none => .error .keyError
  | some ib => do
      let blob ← smart_retrieve t recNum ib
      match dget "IdType" cl with
      | none => .error .keyError
      | some it => do
          let idType ← smart_retrieve t recNum it
          let blob' :=
            if pyEq3 idType then sidDecodePy tl blob
            else if blob ≠ .vstr "Empty" ∧ blob ≠ .vstr "Error" then blobToStringPy blob
            else blob
          match dget "IdIndex" cl with
          | none => .error .keyError
          | some ii => do
              let idx ← smart_retrieve t recNum ii
              pure (dinsert idx blob' acc)

/-- `SrumAnalyzer._load_srumid_lookups`: an absent table yields the empty
    map (the `except (IOError, AttributeError)` clause); otherwise every
    record is decoded and routed. -/
def load_srumid_lookups (tl : Lookups) (tables : List EseTable) :
    Except PyExn (List (PyVal × PyVal)) :=
  match getTableByName tables "SruDbIdMapTable" with
  | none => .ok []
  | some t =>
      (List.range (ese_table_record_count t)).foldlM (srumidStep tl t (columnLookup t)) []

/-! ## The schema workbook (openpyxl model) and the Schema Template Loader -/

structure Sheet where
  name : String
  grid : List (List CellVal)
  styleAt : Nat → Nat → String

/-- `sheet.cell(row=r, column=c).value` (1-based; absent cells are None). -/
def cellAt (sh : Sheet) (r c : Nat) : CellVal :=
  (sh.grid.getD (r - 1) []).getD (c - 1) .cnone

/-- `sheet.max_column` (at least 1 in openpyxl). -/
def maxColumn (sh : Sheet) : Nat :=
  Nat.max 1 ((sh.grid.map List.length).foldr Nat.max 0)

/-- `wb[name]`: the first sheet of that name (sheet names are unique in an
    openpyxl workbook). -/
def wbGet (wb : List Sheet) (nm : String) : Sheet :=
  (wb.find? (fun s => s.name = nm)).getD ⟨"", [], fun _ _ => "Normal"⟩

/-- Python `str.split("-")` on the character list. -/
def splitOnDashList : List Char → List (List Char)
  | [] => [[]]
  | c :: rest =>
      let r := splitOnDashList rest
      if c = '-' then [] :: r
      else
        match r with
        | a :: as => (c :: a) :: as
        | [] => [[c]]

def pySplitDash (s : String) : List String := (splitOnDashList s.data).map String.mk

/-- Python `str.lower()`, modelled on ASCII (the only characters the
    "lookup-" marker comparison can meet). -/
def strLower (s : String) : String := String.mk (s.data.map Char.toLower)

/-- `name.lower().startswith("lookup-")`. -/
def isLookupSheetName (s : String) : Bool :=
  decide ((strLower s).data.take 7 = ['l', 'o', 'o', 'k', 'u', 'p', '-'])

/-- The row loop of `_load_template_lookups`:
    `for row in sheet.iter_rows(min_row=1, max_col=2, values_only=True):
       if row[0] is not None: table[row[0]] = row[1]`. -/
def lookupSheetTable (sh : Sheet) : List (CellVal × CellVal) :=
  sh.grid.foldl (fun tbl row =>
    if row.getD 0 .cnone ≠ .cnone then
      dinsert (row.getD 0 .cnone) (row.getD 1 .cnone) tbl
    else tbl) []

/-- `SrumAnalyzer._load_template_lookups`: sheets whose lowered name starts
    with "lookup-" register `name.split("-")[1]` (the marker guard
    guarantees segment 1 exists) ↦ the sheet's key/value rows. -/
def load_template_lookups (wb : List Sheet) : Lookups :=
  (wb.map Sheet.name).foldl (fun lookups nm =>
    if isLookupSheetName nm then
      dinsert ((pySplitDash nm).getD 1 "") (lookupSheetTable (wbGet wb nm)) lookups
    else lookups) []

/-- The Schema Template Loader for lookup sheets as the (amended) spec words
    it: iterate the sheets; for each sheet whose name starts with the marker
    (case-insensitively), register a lookup named by the text between the
    first and the second hyphen, holding the key→value pairs of the rows
    with a non-null first cell. -/
def load_template_lookups_spec (wb : List Sheet) : Lookups :=
  wb.foldl (fun lookups sh =>
    if isLookupSheetName sh.name then
      dinsert ((pySplitDash sh.name).getD 1 "") (lookupSheetTable sh) lookups
    else lookups) []

/-- The `for col in range(1, sheet.max_column + 1)` loop of
    `_load_template_tables` (`break` on a falsy row-2 cell); the fuel is the
    number of remaining columns. -/
def loadFieldsAux (sh : Sheet) : Nat → Nat → List (CellVal × TField) → List (CellVal × TField)
  | 0, _, acc => acc
  | fuel + 1, col, acc =>
      let fn := cellAt sh 2 col
      if pyFalsyCell fn then acc
      else
        loadFieldsAux sh fuel (col + 1)
          (dinsert fn
            (sh.styleAt 4 col, cellAt sh 3 col,
              if pyFalsyCell (cellAt sh 4 col) then fn else cellAt sh 4 col) acc)

/-- `SrumAnalyzer._load_template_tables`. -/
def load_template_tables (wb : List Sheet) : TemplateTables :=
  (wb.map Sheet.name).foldl (fun tables nm =>
    if isLookupSheetName nm then tables
    else
      let sheet := wbGet wb nm
      let ese_table := cellAt sheet 1 1
      if pyFalsyCell ese_table then tables
      else dinsert ese_table (nm, loadFieldsAux sheet (maxColumn sheet) 1 []) tables) []

/-! ## `SrumAnalyzer.analyze` -/

/-- `template_lookups.setdefault("Known SIDS", {}).update(self.regsids)`. -/
def mergeKnownSids (tl : Lookups) (regsids : List (String × String)) : Lookups :=
  dinsert "Known SIDS"
    (regsids.foldl (fun d p => dinsert (CellVal.cs p.1) (CellVal.cs p.2) d)
      ((dget "Known SIDS" tl).getD [])) tl

/-- The environment an `analyze()` run works in: the two fallible opens (the
    error carries the exception text), the opened database's tables, the
    workbook, the registry side-channel results (`_load_interfaces` and
    `_load_registry_sids` swallow all their exceptions, so they are data),
    and the abstract cell formatter. -/
structure AnalyzeEnv where
  openDb : Except String Unit
  tables : List EseTable
  openWb : Except String Unit
  wb : List Sheet
  regHive : Bool
  regsids : List (String × String)
  fmtFn : PyVal → CellVal → String

inductive AnalyzeErr where
  | ioErr (msg : String)
  | exn (e : PyExn)
  deriving DecidableEq

/-- The outcome of `analyze()` plus the final handle states.  `dbOpened`
    records that `ese_db.open` succeeded, `dbClosed` that `ese_db.close()`
    ran before exit; similarly for the workbook (which the source never
    closes, so `wbClosed` is `false` whenever it was opened). -/
structure AnalyzeResult where
  result : Except AnalyzeErr (List (String × List (List CellVal)) × String)
  dbOpened : Bool
  dbClosed : Bool
  wbOpened : Bool
  wbClosed : Bool

/-- `SrumAnalyzer.analyze`: open database (fatal IOError naming the SRUM
    file), open workbook (fatal IOError naming the template file, with the
    database explicitly closed first), load schema and lookups, merge
    registry SIDs, load the ID map, process the tables, close the database,
    return.  Exceptions escaping the load/process steps propagate with no
    `finally`, leaving the database handle open. -/
def analyze (env : AnalyzeEnv) : AnalyzeResult :=
  let regsids := if env.regHive then env.regsids else []
  match env.openDb with
  | .error e =>
      ⟨.error (.ioErr ("Could not open the specified SRUM file: " ++ e)),
        false, false, false, false⟩
  | .ok _ =>
      match env.openWb with
      | .error e =>
          ⟨.error (.ioErr ("Could not open the specified template file: " ++ e)),
            true, true, false, false⟩
      | .ok _ =>
          let tt := load_template_tables env.wb
          let tl0 := load_template_lookups env.wb
          let tl := if regsids ≠ [] then mergeKnownSids tl0 regsids else tl0
          match load_srumid_lookups tl env.tables with
          | .error e => ⟨.error (.exn e), true, false, true, false⟩
          | .ok _ =>
              match process_srum_tables env.fmtFn tt skip_tables env.tables with
              | .error e => ⟨.error (.exn e), true, false, true, false⟩
              | .ok res => ⟨.ok res, true, true, true, false⟩

/-! ## Concrete workbook/database inputs for witnesses and counterexamples -/

/-- A `SruDbIdMapTable` that lacks the `IdBlob` column but holds a record. -/
def tIdMapNoBlob : EseTable :=
  ⟨"SruDbIdMapTable", ["IdType", "IdIndex"], .ok 1, fun _ => .ok emptyRecord⟩

/-- A well-formed one-record `SruDbIdMapTable`: `IdBlob` a 2-byte binary,
    `IdType` the SID marker 3, `IdIndex` 5. -/
def idMapRecordEx : EseRecord :=
  ⟨fun c => if c = 0 then .largeBinary else .int32s,
   fun c => if c = 0 then some [1, 2] else if c = 1 then some [3, 0, 0, 0]
            else some [5, 0, 0, 0]⟩

def tIdMapEx : EseTable :=
  ⟨"SruDbIdMapTable", ["IdBlob", "IdType", "IdIndex"], .ok 1, fun _ => .ok idMapRecordEx⟩

/-- A one-sheet workbook whose lookup sheet name has a second hyphen. -/
def sheetHyphenEx : Sheet :=
  ⟨"lookup-a-b", [[.cs "k", .cs "v"]], fun _ _ => "Normal"⟩

/-- An environment whose two opens succeed but whose ID-map table raises the
    missing-column `KeyError` during `_load_srumid_lookups`. -/
def envLeakEx : AnalyzeEnv :=
  ⟨.ok (), [tIdMapNoBlob], .ok (), [], false, [], fun v _ => pyStrVal v⟩

/-- An environment whose database open fails. -/
def envDbFail : AnalyzeEnv :=
  ⟨.error "no such file", [], .ok (), [], false, [], fun v _ => pyStrVal v⟩

/-- An environment whose database opens but whose workbook open fails. -/
def envWbFail : AnalyzeEnv :=
  ⟨.ok (), [], .error "bad xlsx", [], false, [], fun v _ => pyStrVal v⟩

/-! ### Round-trip lemmas for the Blob/Text Normalizer (claim C6) -/

theorem utf16leEncode_small (cs : List Char) :
    (∀ c ∈ cs, 1 ≤ c.toNat ∧ c.toNat ≤ 255) →
    utf16leEncode cs = cs.flatMap (fun c => [c.toNat, 0]) := by
  induction cs with
  | nil => intro _; rfl
  | cons c rest ih =>
      intro h
      have hc := h c (by simp)
      have hr := ih (fun x hx => h x (by simp [hx]))
      unfold utf16leEncode at hr ⊢
      rw [List.flatMap_cons, List.flatMap_cons, hr]
      have hlt : c.toNat < 65536 := by omega
      rw [if_pos hlt]
      have h1 : c.toNat % 256 = c.toNat := Nat.mod_eq_of_lt (by omega)
      have h2 : c.toNat / 256 = 0 := Nat.div_eq_of_lt (by omega)
      rw [h1, h2]

theorem utf16leTail_encode (cs : List Char) :
    (∀ c ∈ cs, 1 ≤ c.toNat ∧ c.toNat ≤ 255) →
    utf16leTail (cs.flatMap (fun c => [c.toNat, 0]) ++ [0, 0]) = true := by
  induction cs with
  | nil => intro _; rfl
  | cons c rest ih =>
      intro h
      have hc := h c (by simp)
      simp only [List.flatMap_cons, List.cons_append, List.append_assoc, List.nil_append]
      rw [utf16leTail, if_neg (by omega)]
      exact ih (fun x hx => h x (by simp [hx]))

theorem matchUtf16le_encode (c : Char) (rest : List Char) :
    (∀ x ∈ c :: rest, 1 ≤ x.toNat ∧ x.toNat ≤ 255) →
    matchUtf16le ((c :: rest).flatMap (fun c => [c.toNat, 0]) ++ [0, 0]) = true := by
  intro h
  have hc := h c (by simp)
  simp only [List.flatMap_cons, List.cons_append, List.append_assoc, List.nil_append]
  rw [matchUtf16le, if_neg (by omega)]
  exact utf16leTail_encode rest (fun x hx => h x (by simp [hx]))

theorem bytesToUnitsLE_encode (cs : List Char) :
    bytesToUnitsLE (cs.flatMap (fun c => [c.toNat, 0]) ++ [0, 0]) =
      some (cs.map Char.toNat ++ [0]) := by
  induction cs with
  | nil => rfl
  | cons c rest ih =>
      simp only [List.flatMap_cons, List.cons_append, List.append_assoc, List.nil_append,
        List.map_cons]
      rw [bytesToUnitsLE, ih]
      simp

theorem unitsToChars_small (cs : List Char) :
    (∀ c ∈ cs, 1 ≤ c.toNat ∧ c.toNat ≤ 255) →
    unitsToChars (cs.map Char.toNat ++ [0]) = some (cs ++ ['\x00']) := by
  induction cs with
  | nil => intro _; rfl
  | cons c rest ih =>
      intro h
      have hc := h c (by simp)
      simp only [List.map_cons, List.cons_append]
      obtain ⟨v, ys, hvy⟩ : ∃ v ys, rest.map Char.toNat ++ [0] = v :: ys := by
        cases rest with
        | nil => exact ⟨0, [], rfl⟩
        | cons d ds => exact ⟨d.toNat, ds.map Char.toNat ++ [0], by simp⟩
      rw [hvy, unitsToChars, if_neg (by omega), if_neg (by omega), ← hvy,
        ih (fun x hx => h x (by simp [hx]))]
      simp [Char.ofNat_toNat]

theorem dropWhile_null_eq_self (l : List Char) (h : ∀ x ∈ l, x ≠ '\x00') :
    l.dropWhile (fun x => x = '\x00') = l := by
  cases l with
  | nil => rfl
  | cons c rest => rw [List.dropWhile_cons, if_neg (by simp [h c (by simp)])]

theorem stripNull_append_null (l : List Char) (h : ∀ x ∈ l, x ≠ '\x00') :
    stripNull (l ++ ['\x00']) = l := by
  cases l with
  | nil => rfl
  | cons c rest =>
      have hc : c ≠ '\x00' := h c (by simp)
      unfold stripNull
      rw [List.cons_append, List.dropWhile_cons, if_neg (by simp [hc]),
        ← List.cons_append, List.reverse_append, List.reverse_singleton,
        List.singleton_append, List.dropWhile_cons, if_pos (by simp),
        dropWhile_null_eq_self ((c :: rest).reverse) (fun x hx => h x (List.mem_reverse.mp hx)),
        List.reverse_reverse]

/-- C6: encoding a non-empty string whose characters all have code points in
    1–255 as UTF-16LE plus a trailing double null, then passing the bytes
    through the Blob/Text Normalizer, returns the original string. -/
theorem blob_normalizer_roundtrip (s : String)
    (hne : s.data ≠ [])
    (hcp : ∀ c ∈ s.data, 1 ≤ c.toNat ∧ c.toNat ≤ 255) :
    blob_to_string_bytes (utf16leEncode s.data ++ [0, 0]) = s := by
  obtain ⟨c, rest, hcr⟩ : ∃ c rest, s.data = c :: rest := by
    cases hd : s.data with
    | nil => exact absurd hd hne
    | cons c rest => exact ⟨c, rest, rfl⟩
  have hcp' : ∀ x ∈ c :: rest, 1 ≤ x.toNat ∧ x.toNat ≤ 255 := hcr ▸ hcp
  have hnn : ∀ x ∈ c :: rest, x ≠ '\x00' := by
    intro x hx he
    have h1 := (hcp' x hx).1
    rw [he] at h1
    exact absurd h1 (by decide)
  rw [hcr, utf16leEncode_small _ hcp']
  unfold blob_to_string_bytes blob_decode_core
  rw [if_pos (matchUtf16le_encode c rest hcp')]
  unfold decodeUtf16le
  rw [bytesToUnitsLE_encode (c :: rest), Option.some_bind,
    unitsToChars_small (c :: rest) hcp', Option.map_some', Option.getD_some,
    stripNull_append_null (c :: rest) hnn, ← hcr]

/-- Witness for C6 at the concrete string "hi". -/
theorem blob_normalizer_roundtrip_witness :
    blob_to_string_bytes (utf16leEncode "hi".data ++ [0, 0]) = "hi" :=
  blob_normalizer_roundtrip "hi" (by decide) (by decide)


/-! ### Lemmas for the OLE timestamp conversion (claim C5) -/

theorem splitOnDot_no_dot (cs : List Char) :
    (∀ c ∈ cs, c ≠ '.') → splitOnDot cs = [cs] := by
  induction cs with
  | nil => intro _; rfl
  | cons c rest ih =>
      intro h
      rw [splitOnDot, if_neg (h c (by simp)), ih (fun x hx => h x (by simp [hx]))]

theorem splitOnDot_mid (a b : List Char)
    (ha : ∀ c ∈ a, c ≠ '.') (hb : ∀ c ∈ b, c ≠ '.') :
    splitOnDot (a ++ '.' :: b) = [a, b] := by
  induction a with
  | nil =>
      rw [List.nil_append, splitOnDot, if_pos rfl, splitOnDot_no_dot b hb]
  | cons c arest ih =>
      rw [List.cons_append, splitOnDot, if_neg (ha c (by simp)),
        ih (fun x hx => ha x (by simp [hx]))]

theorem splitDotOnce_concat (td ts : String)
    (h1 : ∀ c ∈ td.data, c ≠ '.') (h2 : ∀ c ∈ ts.data, c ≠ '.') :
    splitDotOnce (td ++ "." ++ ts) = some (td, ts) := by
  unfold splitDotOnce
  have hd : (td ++ "." ++ ts).data = td.data ++ '.' :: ts.data := by
    rw [String.data_append, String.data_append,
      show ("." : String).data = ['.'] from rfl, List.append_assoc, List.singleton_append]
  rw [hd, splitOnDot_mid td.data ts.data h1 h2]

/-- C5: `_ole_timestamp` unpacks an 8-byte little-endian double; a wrong byte
    length yields the "Invalid OLE Timestamp" sentinel; the all-zero double
    0.0 maps exactly to the epoch 1899-12-30T00:00:00; and whenever the
    double's decimal string representation splits at the decimal point into
    an integer-day part and a fractional-day part, the result is the epoch
    plus the integer days plus `86400 * fraction` seconds, unless that
    instant falls outside the `datetime` range, in which case the sentinel
    is produced.  The conversion never raises (it is a total function into
    `OleResult`). -/
theorem ole_timestamp_spec :
    (∀ blob : List Nat, blob.length ≠ 8 → ole_timestamp blob = .invalid) ∧
    ole_timestamp (List.replicate 8 0) = .dt (pyDatetimeSecs 1899 12 30) ∧
    (∀ (blob : List Nat) (fv : FloatVal) (td ts : String) (d : ℤ) (f : ℚ),
      decodeDoubleLE blob = some fv →
      pyFloatStr fv = td ++ "." ++ ts →
      (∀ c ∈ td.data, c ≠ '.') → (∀ c ∈ ts.data, c ≠ '.') →
      parseIntOpt td = some d → parseFracExact ts = some f →
      ole_timestamp blob =
        if 0 ≤ pyDatetimeSecs 1899 12 30 + (d : ℚ) * 86400 + 86400 * f ∧
           pyDatetimeSecs 1899 12 30 + (d : ℚ) * 86400 + 86400 * f ≤ datetimeMaxSecs
        then .dt (pyDatetimeSecs 1899 12 30 + (d : ℚ) * 86400 + 86400 * f)
        else .invalid) ∧
    (∀ (blob : List Nat) (fv : FloatVal),
      decodeDoubleLE blob = some fv →
      splitDotOnce (pyFloatStr fv) = none →
      ole_timestamp blob = .invalid) := by
  refine ⟨fun blob h => ?_, ?_, ?_, fun blob fv h1 h2 => ?_⟩
  · unfold ole_timestamp decodeDoubleLE
    rw [if_neg h]
  · have h1 : decodeDoubleLE (List.replicate 8 0) = some (.finite 0) := rfl
    have h2 : pyFloatStr (.finite 0) = "0.0" := rfl
    have h3 : splitDotOnce "0.0" = some ("0", "0") := rfl
    have h4 : parseIntOpt "0" = some 0 := rfl
    have h5 : parseFracExact "0" = some ((0 : ℚ) / 10 ^ 1) := rfl
    have e1 : toordinal 1899 12 30 = 693594 := by decide
    have e2 : toordinal 9999 12 31 = 3652059 := by decide
    have he : pyDatetimeSecs 1899 12 30 = ((693593 * 86400 : ℕ) : ℚ) := by
      rw [pyDatetimeSecs, e1]
    have hm : datetimeMaxSecs = ((3652058 * 86400 + 86399 : ℕ) : ℚ) + (999999 : ℚ) / 1000000 := by
      rw [datetimeMaxSecs, e2]
    simp only [ole_timestamp, h1, h2, h3, h4, h5]
    rw [if_pos]
    · rw [OleResult.dt.injEq]
      norm_num
    · constructor
      · rw [he]; norm_num
      · rw [he, hm]; norm_num
  · intro blob fv td ts d f hdec hrepr htd hts hd hf
    simp only [ole_timestamp, hdec, hrepr, splitDotOnce_concat td ts htd hts, hd, hf]
  · simp only [ole_timestamp, h1, h2]

/-- Witness for C5: a 3-byte buffer is invalid; the zero double is the epoch;
    the double 1.5 is one and a half days past the epoch. -/
theorem ole_timestamp_spec_witness :
    ole_timestamp [0, 1, 2] = .invalid ∧
    ole_timestamp (List.replicate 8 0) =
      (if 0 ≤ pyDatetimeSecs 1899 12 30 + ((0 : ℤ) : ℚ) * 86400 +
              86400 * (((0 : ℕ) : ℚ) / 10 ^ 1) ∧
          pyDatetimeSecs 1899 12 30 + ((0 : ℤ) : ℚ) * 86400 +
              86400 * (((0 : ℕ) : ℚ) / 10 ^ 1) ≤ datetimeMaxSecs
       then .dt (pyDatetimeSecs 1899 12 30 + ((0 : ℤ) : ℚ) * 86400 +
              86400 * (((0 : ℕ) : ℚ) / 10 ^ 1))
       else .invalid) ∧
    ole_timestamp [0, 0, 0, 0, 0, 0, 240, 127] = .invalid :=
  ⟨ole_timestamp_spec.1 [0, 1, 2] (by decide),
   ole_timestamp_spec.2.2.1 (List.replicate 8 0) (.finite 0) "0" "0" 0 (((0 : ℕ) : ℚ) / 10 ^ 1)
     rfl rfl (by decide) (by decide) rfl rfl,
   ole_timestamp_spec.2.2.2 [0, 0, 0, 0, 0, 0, 240, 127] (.inf false) rfl rfl⟩

/-! ### Lemmas for the binary SID decoder (claim C4) -/

theorem hexVal_hexChar : ∀ n < 16, hexVal? (hexChar n) = some n := by decide

theorem hexDecodeList_pairs (bs : List Nat) :
    (∀ b ∈ bs, b < 256) →
    hexDecodeList (bs.flatMap (fun b => [hexChar (b / 16 % 16), hexChar (b % 16)])) =
      some bs := by
  induction bs with
  | nil => intro _; rfl
  | cons b rest ih =>
      intro h
      have hb := h b (by simp)
      simp only [List.flatMap_cons, List.cons_append, List.nil_append]
      rw [hexDecodeList]
      have h1 : b / 16 % 16 = b / 16 := Nat.mod_eq_of_lt (by omega)
      rw [h1, hexVal_hexChar (b / 16) (by omega),
        hexVal_hexChar (b % 16) (Nat.mod_lt _ (by omega)),
        ih (fun x hx => h x (by simp [hx]))]
      have hb2 : 16 * (b / 16) + b % 16 = b := by omega
      simp [hb2]

theorem hexDecode_hexStr (bs : List Nat) (h : ∀ b ∈ bs, b < 256) :
    hexDecode (hexStr bs) = some bs :=
  hexDecodeList_pairs bs h

theorem hexStr_ne_empty (b : Nat) (rest : List Nat) : hexStr (b :: rest) ≠ "" := by
  intro he
  have hd : (hexStr (b :: rest)).data = [] := by rw [he]
  simp [hexStr, List.flatMap_cons] at hd

theorem subAuthsFrom_complete (sid : List Nat) :
    ∀ (n i : Nat), 8 + 4 * (i + n) ≤ sid.length →
    subAuthsFrom sid i n =
      some ((List.range n).map (fun j => leNat ((sid.drop (8 + 4 * (i + j))).take 4))) := by
  intro n
  induction n with
  | zero => intro i _; rfl
  | succ n ih =>
      intro i h
      rw [subAuthsFrom]
      have hl : ((sid.drop (8 + 4 * i)).take 4).length = 4 := by
        simp only [List.length_take, List.length_drop]
        omega
      rw [if_pos hl, ih (i + 1) (by omega)]
      refine congrArg some ?_
      rw [List.range_succ_eq_map, List.map_cons, List.map_map]
      refine congrArg₂ List.cons rfl (List.map_congr_left fun j hj => ?_)
      simp only [Function.comp_apply]
      have harith : i + 1 + j = i + Nat.succ j := by omega
      rw [harith]

theorem subAuthsFrom_none (sid : List Nat) :
    ∀ (n i : Nat), 1 ≤ n → sid.length < 8 + 4 * (i + n) →
    subAuthsFrom sid i n = none := by
  intro n
  induction n with
  | zero => intro i h; omega
  | succ n ih =>
      intro i _ h
      cases n with
      | zero =>
          have hl : ((sid.drop (8 + 4 * i)).take 4).length ≠ 4 := by
            simp only [List.length_take, List.length_drop]
            omega
          rw [subAuthsFrom, if_neg hl]
      | succ m =>
          by_cases hc : ((sid.drop (8 + 4 * i)).take 4).length = 4
          · rw [subAuthsFrom, if_pos hc, ih (i + 1) (by omega) (by omega)]
            rfl
          · rw [subAuthsFrom, if_neg hc]

/-- C4: on a hex encoding of a well-formed SID byte buffer (enough bytes for
    the declared sub-authority count) the binary SID decoder produces
    `S-<revision>-<authority>-<sub-authorities...>` with the username from
    the "Known SIDS" lookup (default "unknown") in parentheses; a hex-decode
    failure, or a buffer too short for the declared count, yields the
    literal "Invalid SID". -/
theorem binary_sid_decoder_spec (tl : Lookups) :
    (∀ bs : List Nat, bs ≠ [] → (∀ b ∈ bs, b < 256) →
      8 + 4 * bs.getD 1 0 ≤ bs.length →
      binary_sid_to_string_sid tl (hexStr bs) =
        sidStringSpec bs ++ " (" ++ pyStrCell (knownSidName tl (sidStringSpec bs)) ++ ")") ∧
    (∀ s : String, s ≠ "" → hexDecode s = none →
      binary_sid_to_string_sid tl s = "Invalid SID") ∧
    (∀ (s : String) (bs : List Nat), s ≠ "" → hexDecode s = some bs →
      bs.length < 8 + 4 * bs.getD 1 0 →
      binary_sid_to_string_sid tl s = "Invalid SID") := by
  refine ⟨fun bs hne hbytes hlen => ?_, fun s hs hdec => ?_, fun s bs hs hdec hshort => ?_⟩
  · obtain ⟨b0, rest, hcr⟩ : ∃ b0 rest, bs = b0 :: rest := by
      cases hb : bs with
      | nil => exact absurd hb hne
      | cons x xs => exact ⟨x, xs, rfl⟩
    subst hcr
    have hrest : rest ≠ [] := by
      intro h0
      subst h0
      simp at hlen
    have hlen8 : 8 ≤ (b0 :: rest).length := by omega
    have h6 : (((b0 :: rest).drop 2).take 6).length = 6 := by
      simp only [List.length_take, List.length_drop]
      simp at hlen8 ⊢
      omega
    unfold binary_sid_to_string_sid
    rw [if_neg (hexStr_ne_empty b0 rest), hexDecode_hexStr (b0 :: rest) hbytes]
    simp only [if_neg hrest, if_neg (not_not_intro h6)]
    rw [subAuthsFrom_complete (b0 :: rest) ((b0 :: rest).getD 1 0) 0 (by omega)]
    simp only [sidStringSpec, knownSidName, List.getD_cons_zero, Nat.zero_add, List.map_map]
    rfl
  · unfold binary_sid_to_string_sid
    rw [if_neg hs, hdec]
  · unfold binary_sid_to_string_sid
    rw [if_neg hs, hdec]
    cases bs with
    | nil => rfl
    | cons b0 rest =>
        cases rest with
        | nil => rfl
        | cons b1 rest' =>
            by_cases h6 : (((b0 :: b1 :: rest').drop 2).take 6).length ≠ 6
            · simp only [if_neg (by simp : ¬(b1 :: rest' = [])), if_pos h6]
            · have hcount : 1 ≤ (b0 :: b1 :: rest').getD 1 0 := by
                simp only [List.length_take, List.length_drop, not_not] at h6
                simp only [List.getD_cons_succ, List.getD_cons_zero] at hshort ⊢
                simp at hshort h6 ⊢
                omega
              simp only [if_neg (by simp : ¬(b1 :: rest' = [])), if_neg h6]
              rw [subAuthsFrom_none (b0 :: b1 :: rest') ((b0 :: b1 :: rest').getD 1 0) 0
                hcount (by omega)]

/-- Witness for C4: the spec's own test vector (revision 1, two
    sub-authorities 21 and 1000, authority 5) decodes to
    "S-1-5-21-1000 (unknown)" against an empty lookup table; a non-hex
    string and a one-byte buffer are rejected as "Invalid SID". -/
theorem binary_sid_decoder_spec_witness :
    binary_sid_to_string_sid []
        (hexStr [1, 2, 0, 0, 0, 0, 0, 5, 21, 0, 0, 0, 232, 3, 0, 0]) =
      sidStringSpec [1, 2, 0, 0, 0, 0, 0, 5, 21, 0, 0, 0, 232, 3, 0, 0] ++ " (" ++
        pyStrCell (knownSidName []
          (sidStringSpec [1, 2, 0, 0, 0, 0, 0, 5, 21, 0, 0, 0, 232, 3, 0, 0])) ++ ")" ∧
    binary_sid_to_string_sid [] "zz" = "Invalid SID" ∧
    binary_sid_to_string_sid [] "01" = "Invalid SID" ∧
    sidStringSpec [1, 2, 0, 0, 0, 0, 0, 5, 21, 0, 0, 0, 232, 3, 0, 0] = "S-1-5-21-1000" :=
  ⟨(binary_sid_decoder_spec []).1 [1, 2, 0, 0, 0, 0, 0, 5, 21, 0, 0, 0, 232, 3, 0, 0]
      (by decide) (by decide) (by decide),
   (binary_sid_decoder_spec []).2.1 "zz" (by decide) (by decide),
   (binary_sid_decoder_spec []).2.2 "01" [1] (by decide) (by decide) (by decide),
   by decide⟩

/-! ### Lemmas for table processing (claims C1, C2, C10) -/

theorem exceptBind_ok {ε α β : Type} (x : Except ε α) (g : α → Except ε β) (b : β) :
    (x >>= g) = .ok b ↔ ∃ a, x = .ok a ∧ g a = .ok b := by
  cases x <;> simp [Bind.bind, Except.bind]

theorem exceptPure_ok {ε α : Type} (a b : α) :
    (pure a : Except ε α) = .ok b ↔ a = b := by
  simp [pure, Except.pure]

theorem dkeys_dinsert {α β : Type} [DecidableEq α] (k k' : α) (v : β) (d : List (α × β)) :
    k' ∈ dkeys (dinsert k v d) ↔ k' = k ∨ k' ∈ dkeys d := by
  induction d with
  | nil => simp [dinsert, dkeys]
  | cons p rest ih =>
      obtain ⟨pk, pv⟩ := p
      by_cases h : pk = k
      · subst h
        simp [dinsert, dkeys]
      · simp only [dinsert, if_neg h, dkeys, List.map_cons, List.mem_cons] at ih ⊢
        rw [ih]
        tauto

/-- C1 (amended): `_smart_retrieve` raises an exception exactly when the
    record fetch succeeds, the cell has data, the column type is GUID and the
    buffer is not 16 bytes long (`uuid.UUID` raises `ValueError`, which the
    `except (struct.error, TypeError)` clause does not catch); every other
    type tag falls back to the Blob/Text Normalizer on a malformed buffer
    and always yields a value. -/
theorem smart_retrieve_raises_iff (t : EseTable) (r c : Nat) :
    (∃ e, smart_retrieve t r c = .error e) ↔
      (∃ rec data, ese_table_get_record t r = some rec ∧
        rec.valueData c = some data ∧ rec.colType c = .guid ∧ data.length ≠ 16) := by
  cases hrec : ese_table_get_record t r with
  | none => simp [smart_retrieve, hrec]
  | some rec =>
      cases hdata : rec.valueData c with
      | none => simp [smart_retrieve, hrec, hdata]
      | some data =>
          cases hct : rec.colType c <;>
            simp only [smart_retrieve, hrec, hdata, hct] <;>
            (try split) <;>
            simp_all

/-- C1 counterexample: a GUID column holding a malformed 4-byte buffer makes
    `_smart_retrieve` raise instead of falling back to the normalizer, and
    the raise aborts `_process_srum_tables` (hence the whole `analyze()`
    run), contradicting the fail-soft-per-cell claim. -/
theorem smart_retrieve_guid_raises :
    smart_retrieve guidBadTable 0 0 = .error .valueError ∧
    process_srum_tables (fun v _ => pyStrVal v) [] skip_tables [guidBadTable] =
      .error .valueError := by
  exact ⟨rfl, rfl⟩

theorem processFold_keys (fmtFn : PyVal → CellVal → String) (tt : TemplateTables)
    (skip : List String) (tables : List EseTable) :
    ∀ (acc m : List (String × List (List CellVal))),
    tables.foldlM (processFoldStep fmtFn tt skip) acc = .ok m →
    ∀ k, k ∈ dkeys m ↔
      (k ∈ dkeys acc ∨ ∃ t ∈ tables, t.name ∉ skip ∧ ese_table_record_count t ≠ 0 ∧
        ese_table_guid_to_name tt t = k) := by
  induction tables with
  | nil =>
      intro acc m h k
      simp only [List.foldlM_nil, exceptPure_ok] at h
      subst h
      simp
  | cons t ts ih =>
      intro acc m h k
      rw [List.foldlM_cons, exceptBind_ok] at h
      obtain ⟨acc', hstep, hrest⟩ := h
      have hks := ih acc' m hrest k
      unfold processFoldStep at hstep
      by_cases hskip : t.name ∈ skip
      · rw [if_pos hskip, exceptPure_ok] at hstep
        subst hstep
        rw [hks]
        simp only [List.mem_cons]
        constructor
        · rintro (h | ⟨t', ht', he⟩)
          · exact Or.inl h
          · exact Or.inr ⟨t', Or.inr ht', he⟩
        · rintro (h | ⟨t', (rfl | ht'), he⟩)
          · exact Or.inl h
          · exact absurd hskip he.1
          · exact Or.inr ⟨t', ht', he⟩
      · rw [if_neg hskip] at hstep
        by_cases hzero : ese_table_record_count t = 0
        · rw [if_pos hzero, exceptPure_ok] at hstep
          subst hstep
          rw [hks]
          simp only [List.mem_cons]
          constructor
          · rintro (h | ⟨t', ht', he⟩)
            · exact Or.inl h
            · exact Or.inr ⟨t', Or.inr ht', he⟩
          · rintro (h | ⟨t', (rfl | ht'), he⟩)
            · exact Or.inl h
            · exact absurd hzero he.2.1
            · exact Or.inr ⟨t', ht', he⟩
        · rw [if_neg hzero, exceptBind_ok] at hstep
          obtain ⟨rows, _, hpure⟩ := hstep
          rw [exceptPure_ok] at hpure
          subst hpure
          rw [hks, dkeys_dinsert]
          simp only [List.mem_cons]
          constructor
          · rintro ((rfl | h) | ⟨t', ht', he⟩)
            · exact Or.inr ⟨t, Or.inl rfl, hskip, hzero, rfl⟩
            · exact Or.inl h
            · exact Or.inr ⟨t', Or.inr ht', he⟩
          · rintro (h | ⟨t', (rfl | ht'), he⟩)
            · exact Or.inl (Or.inr h)
            · exact Or.inl (Or.inl he.2.2.symm)
            · exact Or.inr ⟨t', ht', he⟩

/-- C2: in a completed run, a table contributes an entry to the output
    mapping exactly when its internal name is not in the fixed skip-list and
    its record count (a failing count query counting as zero) is non-zero;
    skip-listed and zero-record tables never appear, every other table
    does (under its display name). -/
theorem process_tables_entries (fmtFn : PyVal → CellVal → String) (tt : TemplateTables)
    (tables : List EseTable) (m : List (String × List (List CellVal))) (msg : String)
    (h : process_srum_tables fmtFn tt skip_tables tables = .ok (m, msg)) :
    ∀ k, k ∈ dkeys m ↔
      ∃ t ∈ tables, t.name ∉ skip_tables ∧ ese_table_record_count t ≠ 0 ∧
        ese_table_guid_to_name tt t = k := by
  unfold process_srum_tables at h
  cases hf : tables.foldlM (processFoldStep fmtFn tt skip_tables) [] with
  | error e => rw [hf] at h; exact absurd h (by simp [Except.map])
  | ok m0 =>
      rw [hf] at h
      have hm : m0 = m := by
        simp [Except.map] at h
        exact h.1
      subst hm
      intro k
      rw [processFold_keys fmtFn tt skip_tables tables [] m0 hf k]
      simp [dkeys]

/-- Witness for C2: with a record-bearing skip-listed table, a zero-record
    table and an ordinary table, only the ordinary table's name is a key of
    the output. -/
theorem process_tables_entries_witness :
    (("Good" : String) ∈ dkeys [("Good", ([[], []] : List (List CellVal)))] ↔
      ∃ t ∈ [tSkipEx, tZeroEx, tGoodEx], t.name ∉ skip_tables ∧
        ese_table_record_count t ≠ 0 ∧ ese_table_guid_to_name [] t = "Good") ∧
    (("MSysObjects" : String) ∈ dkeys [("Good", ([[], []] : List (List CellVal)))] ↔
      ∃ t ∈ [tSkipEx, tZeroEx, tGoodEx], t.name ∉ skip_tables ∧
        ese_table_record_count t ≠ 0 ∧ ese_table_guid_to_name [] t = "MSysObjects") :=
  ⟨process_tables_entries (fun v _ => pyStrVal v) [] [tSkipEx, tZeroEx, tGoodEx]
      [("Good", [[], []])] "Finished processing all tables." rfl "Good",
   process_tables_entries (fun v _ => pyStrVal v) [] [tSkipEx, tZeroEx, tGoodEx]
      [("Good", [[], []])] "Finished processing all tables." rfl "MSysObjects"⟩

theorem processRows_fold (fmtFn : PyVal → CellVal → String) (tt : TemplateTables)
    (t : EseTable) :
    ∀ (l : List Nat) (acc rows : List (List CellVal)),
    (l.foldlM (fun acc rowNum =>
      match ese_table_get_record t rowNum with
      | none => pure acc
      | some _ => do
          let row ← buildRow fmtFn tt t rowNum
          pure (acc ++ [row])) acc) = .ok rows →
    rows = acc ++ l.filterMap (fun r =>
      match ese_table_get_record t r with
      | none => none
      | some _ => (buildRow fmtFn tt t r).toOption) := by
  intro l
  induction l with
  | nil =>
      intro acc rows h
      simp only [List.foldlM_nil, exceptPure_ok] at h
      subst h
      simp
  | cons r rs ih =>
      intro acc rows h
      rw [List.foldlM_cons] at h
      cases hrec : ese_table_get_record t r with
      | none =>
          rw [hrec] at h
          rw [exceptBind_ok] at h
          obtain ⟨a, ha, hrest⟩ := h
          rw [exceptPure_ok] at ha
          subst ha
          simp only [List.filterMap_cons, hrec]
          exact ih acc rows hrest
      | some rec =>
          rw [hrec] at h
          rw [exceptBind_ok] at h
          obtain ⟨acc', hstep, hrest⟩ := h
          rw [exceptBind_ok] at hstep
          obtain ⟨row, hrow, hpure⟩ := hstep
          rw [exceptPure_ok] at hpure
          subst hpure
          rw [ih (acc ++ [row]) rows hrest]
          simp only [List.filterMap_cons, hrec, hrow, Except.toOption, List.append_assoc,
            List.singleton_append]

theorem filterMapLength_lt {α β : Type} (f : α → Option β) (l : List α) (a : α)
    (ha : a ∈ l) (hf : f a = none) : (l.filterMap f).length < l.length := by
  obtain ⟨s, u, rfl⟩ := List.append_of_mem ha
  have h1 := List.length_filterMap_le f s
  have h2 := List.length_filterMap_le f u
  rw [List.filterMap_append, List.filterMap_cons, hf]
  dsimp only
  simp only [List.length_append, List.length_cons]
  omega

/-- C10: a record whose guarded fetch fails is silently omitted — the data
    rows are exactly the built rows of the indices whose fetch succeeds, in
    order, with no placeholder — and if any fetch among the reported count
    fails, the table contributes strictly fewer data rows than its record
    count. -/
theorem process_rows_skip_failed (fmtFn : PyVal → CellVal → String)
    (tt : TemplateTables) (t : EseTable) (n : Nat) (rows : List (List CellVal))
    (h : processTableRows fmtFn tt t n = .ok rows) :
    rows = (List.range n).filterMap (fun r =>
      match ese_table_get_record t r with
      | none => none
      | some _ => (buildRow fmtFn tt t r).toOption) ∧
    (∀ i, i < n → ese_table_get_record t i = none → rows.length < n) := by
  have h0 := processRows_fold fmtFn tt t (List.range n) [] rows h
  rw [List.nil_append] at h0
  refine ⟨h0, fun i hi hfail => ?_⟩
  rw [h0]
  have := filterMapLength_lt
    (fun r => match ese_table_get_record t r with
      | none => none
      | some _ => (buildRow fmtFn tt t r).toOption)
    (List.range n) i (List.mem_range.mpr hi) (by simp [hfail])
  simpa using this

/-- Witness for C10: a table reporting 3 records whose middle record fetch
    raises contributes 2 data rows (indices 0 and 2), fewer than the count. -/
theorem process_rows_skip_failed_witness :
    ([[], []] : List (List CellVal)) = (List.range 3).filterMap (fun r =>
      match ese_table_get_record tDropEx r with
      | none => none
      | some _ => (buildRow (fun v _ => pyStrVal v) [] tDropEx r).toOption) ∧
    (∀ i, i < 3 → ese_table_get_record tDropEx i = none →
      ([[], []] : List (List CellVal)).length < 3) :=
  process_rows_skip_failed (fun v _ => pyStrVal v) [] tDropEx 3 [[], []] rfl

/-! ### Lemmas for the ID-Map Resolver (claim C7) -/

/-- C7 counterexample: a present `SruDbIdMapTable` that lacks the `IdBlob`
    column and holds one record makes the resolver raise `KeyError` instead
    of returning an empty map. -/
theorem load_srumid_missing_column_raises :
    load_srumid_lookups [] [tIdMapNoBlob] = .error .keyError := by
  rfl

/-- C7 (amended): an absent `SruDbIdMapTable` yields the empty map without
    raising; a present table lacking the expected `IdBlob` column raises an
    uncaught `KeyError` as soon as it has a record (the subscript sits
    outside the `try`); and for a record whose three columns decode, `IdType
    == 3` routes the blob through the binary SID decoder while any other
    non-sentinel blob goes through the Blob/Text Normalizer, stored under
    the decoded `IdIndex`. -/
theorem load_srumid_lookups_spec :
    (∀ (tl : Lookups) (tables : List EseTable),
      getTableByName tables "SruDbIdMapTable" = none →
      load_srumid_lookups tl tables = .ok []) ∧
    (∀ (tl : Lookups) (tables : List EseTable) (t : EseTable),
      getTableByName tables "SruDbIdMapTable" = some t →
      dget "IdBlob" (columnLookup t) = none →
      1 ≤ ese_table_record_count t →
      load_srumid_lookups tl tables = .error .keyError) ∧
    (∀ (tl : Lookups) (t : EseTable) (cl : List (String × Nat))
        (acc : List (PyVal × PyVal)) (r ib it ii : Nat) (b ty ix : PyVal),
      dget "IdBlob" cl = some ib → dget "IdType" cl = some it →
      dget "IdIndex" cl = some ii →
      smart_retrieve t r ib = .ok b → smart_retrieve t r it = .ok ty →
      smart_retrieve t r ii = .ok ix →
      srumidStep tl t cl acc r = .ok (dinsert ix
        (if pyEq3 ty then sidDecodePy tl b
         else if b ≠ .vstr "Empty" ∧ b ≠ .vstr "Error" then blobToStringPy b
         else b) acc)) := by
  refine ⟨fun tl tables hfind => ?_, fun tl tables t hfind hno hcount => ?_,
    fun tl t cl acc r ib it ii b ty ix hib hit hii hsb hst hsi => ?_⟩
  · simp only [load_srumid_lookups, hfind]
  · simp only [load_srumid_lookups, hfind]
    obtain ⟨m, hm⟩ : ∃ m, ese_table_record_count t = m + 1 :=
      ⟨ese_table_record_count t - 1, (Nat.succ_pred_eq_of_pos hcount).symm⟩
    rw [hm, List.range_succ_eq_map, List.foldlM_cons]
    unfold srumidStep
    rw [hno]
    rfl
  · simp only [srumidStep, hib, hit, hii, hsb, hst, hsi]
    simp [Bind.bind, Except.bind, pure, Except.pure]

/-- Witness for C7: the empty database has no ID-map table (empty result);
    the `IdBlob`-less table raises; and for a concrete well-formed record
    (2-byte blob, `IdType` 3, `IdIndex` 5) the loop step stores the routed
    value under index 5. -/
theorem load_srumid_lookups_spec_witness :
    load_srumid_lookups [] [] = .ok [] ∧
    load_srumid_lookups [] [tIdMapNoBlob] = .error .keyError ∧
    srumidStep [] tIdMapEx (columnLookup tIdMapEx) [] 0 = .ok (dinsert (.vint 5)
      (if pyEq3 (.vint 3) then sidDecodePy [] (.vstr "0102")
       else if (.vstr "0102") ≠ PyVal.vstr "Empty" ∧ (.vstr "0102") ≠ PyVal.vstr "Error"
       then blobToStringPy (.vstr "0102")
       else .vstr "0102") []) :=
  ⟨load_srumid_lookups_spec.1 [] [] rfl,
   load_srumid_lookups_spec.2.1 [] [tIdMapNoBlob] tIdMapNoBlob rfl rfl (by decide),
   load_srumid_lookups_spec.2.2 [] tIdMapEx (columnLookup tIdMapEx) [] 0 0 1 2
     (.vstr "0102") (.vint 3) (.vint 5) rfl rfl rfl rfl rfl rfl⟩

/-! ### Lemmas for the Schema Template Loader, lookup sheets (claim C9) -/

/-- C9 counterexample: a lookup sheet named "lookup-a-b" registers the
    lookup under "a" (the segment between the first and second hyphen),
    not under the entire text "a-b" after the marker. -/
theorem load_template_lookups_hyphen_name :
    dget "a-b" (load_template_lookups [sheetHyphenEx]) = none ∧
    load_template_lookups [sheetHyphenEx] = [("a", [(.cs "k", .cs "v")])] := by
  exact ⟨rfl, rfl⟩

theorem wbGet_self (wb : List Sheet) (hnd : (wb.map Sheet.name).Nodup) :
    ∀ sh ∈ wb, wbGet wb sh.name = sh := by
  induction wb with
  | nil => intro sh h; simp at h
  | cons s rest ih =>
      intro sh hsh
      simp only [List.map_cons, List.nodup_cons] at hnd
      rcases List.mem_cons.mp hsh with rfl | hmem
      · unfold wbGet
        rw [List.find?_cons_of_pos _ (by simp)]
        rfl
      · have hne : ¬(s.name = sh.name) := by
          intro he
          exact hnd.1 (he ▸ List.mem_map_of_mem Sheet.name hmem)
        unfold wbGet
        rw [List.find?_cons_of_neg _ (by simp [hne])]
        exact ih hnd.2 sh hmem

theorem lookups_foldl_agree (wb : List Sheet) :
    ∀ (l : List Sheet) (acc : Lookups), (∀ sh ∈ l, wbGet wb sh.name = sh) →
    ((l.map Sheet.name).foldl (fun lookups nm =>
        if isLookupSheetName nm then
          dinsert ((pySplitDash nm).getD 1 "") (lookupSheetTable (wbGet wb nm)) lookups
        else lookups) acc) =
    (l.foldl (fun lookups sh =>
        if isLookupSheetName sh.name then
          dinsert ((pySplitDash sh.name).getD 1 "") (lookupSheetTable sh) lookups
        else lookups) acc) := by
  intro l
  induction l with
  | nil => intro acc _; rfl
  | cons sh rest ih =>
      intro acc hres
      simp only [List.map_cons, List.foldl_cons]
      rw [hres sh (by simp)]
      exact ih _ (fun x hx => hres x (by simp [hx]))

/-- C9 (amended): for a workbook with distinct sheet names, the loader
    registers, for every sheet whose name starts with the "lookup-" marker
    (case-insensitively), a lookup whose name is the text between the first
    and the second hyphen of the sheet name (`name.split("-")[1]`), holding
    the (first cell → second cell) pairs of every sheet row from row 1 whose
    first cell is non-null. -/
theorem load_template_lookups_amended (wb : List Sheet)
    (hnd : (wb.map Sheet.name).Nodup) :
    load_template_lookups wb = load_template_lookups_spec wb := by
  unfold load_template_lookups load_template_lookups_spec
  exact lookups_foldl_agree wb wb [] (wbGet_self wb hnd)

/-- Witness for C9 at a one-sheet workbook. -/
theorem load_template_lookups_amended_witness :
    load_template_lookups [sheetHyphenEx] = load_template_lookups_spec [sheetHyphenEx] :=
  load_template_lookups_amended [sheetHyphenEx] (by decide)

/-! ### Lemmas for `analyze` (claims C3 and C8) -/

/-- C3: `analyze()` raises an I/O error naming the SRUM file exactly when
    the database open fails (nothing was opened), and an I/O error naming
    the template file when the workbook open fails after the database
    opened — with the database handle closed before the error propagates;
    in both cases no analysis result is produced. -/
theorem analyze_fatal_io (env : AnalyzeEnv) :
    (∀ e, env.openDb = .error e →
      analyze env = ⟨.error (.ioErr ("Could not open the specified SRUM file: " ++ e)),
        false, false, false, false⟩) ∧
    (∀ e, env.openDb = .ok () → env.openWb = .error e →
      analyze env = ⟨.error (.ioErr ("Could not open the specified template file: " ++ e)),
        true, true, false, false⟩) ∧
    (∀ msg, env.openDb = .ok () → env.openWb = .ok () →
      (analyze env).result ≠ .error (.ioErr msg)) := by
  refine ⟨fun e h => ?_, fun e h1 h2 => ?_, fun msg h1 h2 => ?_⟩
  · simp only [analyze, h]
  · simp only [analyze, h1, h2]
  · simp only [analyze, h1, h2]
    split
    · simp
    · split <;> simp

/-- Witness for C3 at two concrete environments. -/
theorem analyze_fatal_io_witness :
    analyze envDbFail =
      ⟨.error (.ioErr ("Could not open the specified SRUM file: " ++ "no such file")),
        false, false, false, false⟩ ∧
    analyze envWbFail =
      ⟨.error (.ioErr ("Could not open the specified template file: " ++ "bad xlsx")),
        true, true, false, false⟩ ∧
    (analyze envLeakEx).result ≠ .error (.ioErr "Could not open the specified SRUM file: ") :=
  ⟨(analyze_fatal_io envDbFail).1 "no such file" rfl,
   (analyze_fatal_io envWbFail).2.1 "bad xlsx" rfl rfl,
   (analyze_fatal_io envLeakEx).2.2 "Could not open the specified SRUM file: " rfl rfl⟩

/-- C8 counterexample: when `_load_srumid_lookups` raises (the ID-map table
    lacks its `IdBlob` column), `analyze()` propagates the exception with
    the database handle still open; and even then the workbook handle is
    never closed (no close call exists in the source). -/
theorem analyze_leaks_db_handle :
    (analyze envLeakEx).result = .error (.exn .keyError) ∧
    (analyze envLeakEx).dbOpened = true ∧
    (analyze envLeakEx).dbClosed = false ∧
    (analyze envLeakEx).wbOpened = true ∧
    (analyze envLeakEx).wbClosed = false := by
  exact ⟨rfl, rfl, rfl, rfl, rfl⟩

/-- C8 (amended): the database handle is closed on exactly two exit paths —
    the normal return and the workbook-open-failure path; any exception
    escaping ID-map loading or table processing leaves it open; and the
    workbook handle is never closed on any path. -/
theorem analyze_handle_closure (env : AnalyzeEnv) :
    ((analyze env).dbClosed = true ↔
      ((∃ res, (analyze env).result = .ok res) ∨
        (env.openDb = .ok () ∧ ∃ e, env.openWb = .error e))) ∧
    (analyze env).wbClosed = false := by
  constructor
  · cases hdb : env.openDb with
    | error e => simp [analyze, hdb]
    | ok u =>
        cases u
        cases hwb : env.openWb with
        | error e => simp [analyze, hdb, hwb]
        | ok u2 =>
            cases u2
            simp only [analyze, hdb, hwb]
            split
            · simp [hwb]
            · split
              · simp [hwb]
              · simp [hdb, hwb]
  · simp only [analyze]
    split
    · rfl
    · split
      · rfl
      · split
        · rfl
        · split <;> rfl

end Anubis
